import Mathlib

/-!
Shallow embedding of the finanzen-fundamentals repository
(finanzen_fundamentals/stocks.py and finanzen_fundamentals/scraper.py).

Modelling conventions:
* Python floats are modelled as exact rationals; IEEE rounding is ignored.
* HTML soups are modelled as structures carrying exactly the pieces of the
  DOM the source reads (heading-matched subtrees, th texts, td texts).
* The network fetcher _make_soup is a parameter of each operation; every
  operation additionally returns the list of URLs it requested, so that
  properties of the form "raises before issuing any HTTP request" are
  statable.
* Python exceptions are modelled as error values of type PyErr; a raising
  call returns Except.error.
* check_data, parse_price and parse_timestamp live in modules that are not
  part of the sources (functions.py); they are modelled as a Boolean page
  marker and as function parameters, following the spec.
-/

/-- Python exception kinds raised by the embedded code.  The source raises
ValueError at several distinct sites, distinguished only by message text;
they are modelled as distinct constructors. -/
inductive PyErr where
  /-- ValueError from the output-format check. -/
  | valueErrorOutput
  /-- ValueError from the exchange allow-list check in get_price. -/
  | valueErrorExchange
  /-- ValueError raised by pd.concat on an empty list of frames. -/
  | valueErrorConcat
  /-- ValueError from int() or float() on a malformed numeric string. -/
  | valueErrorNum
  /-- ValueError from search_stock_lxml when the result table is empty. -/
  | valueErrorSearch
  /-- NoDataException raised when check_data fails or a quote box is absent. -/
  | noData
  /-- TypeError, e.g. iterating over None. -/
  | typeError
  /-- AttributeError, e.g. calling a method on None. -/
  | attrError
  /-- IndexError from indexing past the end of a list. -/
  | indexError
  /-- NameError from reading a variable that was never assigned. -/
  | nameError
  /-- Failure of the spec-modelled parse_price or parse_timestamp helper. -/
  | parseError
  deriving DecidableEq

instance {ε α : Type} [DecidableEq ε] [DecidableEq α] : DecidableEq (Except ε α)
  | Except.error e, Except.error f =>
      if h : e = f then Decidable.isTrue (by rw [h]) else Decidable.isFalse (by simp [h])
  | Except.error _, Except.ok _ => Decidable.isFalse (by simp)
  | Except.ok _, Except.error _ => Decidable.isFalse (by simp)
  | Except.ok a, Except.ok b =>
      if h : a = b then Decidable.isTrue (by rw [h]) else Decidable.isFalse (by simp [h])

/-- Fail-fast effectful map over a list, i.e. a Python list comprehension in
which element conversion may raise: the first exception aborts the whole
comprehension. -/
def mapE {α β : Type} (f : α → Except PyErr β) : List α → Except PyErr (List β)
  | [] => Except.ok []
  | a :: l => do
      let b ← f a
      let bs ← mapE f l
      Except.ok (b :: bs)

/-- Model of Python str.lower restricted to ASCII, which covers the stock
identifiers and output-format strings the source lowercases. -/
def strLower (s : String) : String := String.mk (s.data.map Char.toLower)

/-- Model of Python str.upper restricted to ASCII, covering exchange codes. -/
def strUpper (s : String) : String := String.mk (s.data.map Char.toUpper)

/-- Model of re.sub on a dot pattern with empty replacement: remove every
dot character of the string. -/
def removeDots (s : String) : String := String.mk (s.data.filter (fun c => c != '.'))

/-- Model of re.sub replacing every comma by a dot. -/
def commaToDot (s : String) : String :=
  String.mk (s.data.map (fun c => if c = ',' then '.' else c))

/-- Accumulating decimal value of a digit-character list, as computed by
Python float()/int() on a digit string. -/
def digitsVal (l : List Char) : Nat := l.foldl (fun a c => 10 * a + (c.toNat - 48)) 0

/-- Decimal value of a digit list. -/
def natOfDigits (l : List Nat) : Nat := l.foldl (fun a d => 10 * a + d) 0

/-- Core of the float() model on an unsigned literal: leading digits, then
optionally a dot and fraction digits; at least one digit must be present. -/
def parsePyFloatCore (l : List Char) : Option ℚ :=
  let ip := l.takeWhile Char.isDigit
  let rest := l.dropWhile Char.isDigit
  match rest with
  | [] => if ip.isEmpty then none else some ((digitsVal ip : ℚ))
  | '.' :: frac =>
      if frac.all Char.isDigit && (!ip.isEmpty || !frac.isEmpty) then
        some ((digitsVal ip : ℚ) + (digitsVal frac : ℚ) / (10 : ℚ) ^ frac.length)
      else none
  | _ => none

/-- Model of Python float() on plain decimal literals: optional sign, digits,
optional dot and fraction digits.  Exponent, underscore, whitespace and
inf/nan forms cannot be produced by the normalizations in the source and are
mapped to failure. -/
def parsePyFloat (s : String) : Option ℚ :=
  match s.data with
  | [] => none
  | c :: rest =>
      if c = '-' then (parsePyFloatCore rest).map (fun q => -q)
      else if c = '+' then parsePyFloatCore rest
      else parsePyFloatCore (c :: rest)

/-- Model of Python int() on plain integer literals (optional sign then
digits); anything else raises ValueError. -/
def parsePyInt (s : String) : Except PyErr Int :=
  match s.data with
  | [] => Except.error PyErr.valueErrorNum
  | c :: rest =>
      if c = '-' then
        if !rest.isEmpty && rest.all Char.isDigit then Except.ok (-(digitsVal rest : Int))
        else Except.error PyErr.valueErrorNum
      else
        if (c :: rest).all Char.isDigit then Except.ok ((digitsVal (c :: rest) : Int))
        else Except.error PyErr.valueErrorNum

/-- Model of the cell normalization of _parse_table (stocks.py lines 58-60):
remove all dots, replace commas by dots, then map the literal leftovers
"-" and "< 0 *" to None and convert everything else with float(). -/
def normalizeCell (s : String) : Except PyErr (Option ℚ) :=
  let x := commaToDot (removeDots s)
  if x = "-" ∨ x = "< 0 *" then Except.ok none
  else match parsePyFloat x with
    | some q => Except.ok (some q)
    | none => Except.error PyErr.valueErrorNum

/-- Model of the cell normalization of get_estimates (stocks.py lines
149-152): map the literal "-" to None first, then strip every character that
is neither a digit nor a comma, replace commas by dots, and convert with
float(). -/
def normalizeEstCell (s : String) : Except PyErr (Option ℚ) :=
  if s = "-" then Except.ok none
  else
    let x := commaToDot (String.mk (s.data.filter (fun c => c.isDigit || c == ',')))
    match parsePyFloat x with
    | some q => Except.ok (some q)
    | none => Except.error PyErr.valueErrorNum

/-- Model of the suffix strip (stocks.py lines 37-38 and 128-129): when the
identifier ends with the string "-aktie", drop that six-character suffix,
as re.sub with an end-anchored pattern does under the endswith guard. -/
def stripAktie (s : String) : String :=
  if ("-aktie".data).isSuffixOf s.data then String.mk (s.data.take (s.data.length - 6)) else s

/-- Model of one tr row inside a fundamentals sub-table: the text of the bold
name cell when the row has one, and the texts of all td cells of the row. -/
structure FundRow where
  boldName : Option String
  cells : List String
  deriving DecidableEq

/-- Model of the DOM subtree holding one fundamentals sub-table (the parent
of the matched h2 heading): texts of all th cells and all tr rows. -/
structure FundSection where
  thTexts : List String
  rows : List FundRow
  deriving DecidableEq

/-- Model of the fundamentals page soup.  The field valid models check_data
from functions.py, which is not under src/ (modelled from the spec: a marker
element confirming valid page content is present).  The field sections models
looking up the parent of an h2 heading whose text matches a signaler; none
when no heading matches, in which case reading .parent raises
AttributeError in the source. -/
structure FundPage where
  valid : Bool
  sections : String → Option FundSection

/-- Model of _parse_table (stocks.py lines 48-62): find the sub-table for the
signaler, convert the th texts after the first two to int years, then for
every tr row after the first read the bold metric name (AttributeError when
absent) and normalize the td cells after the first two.  Rows are kept in
order as an association list, standing for the insertion-ordered Python
dict. -/
def _parse_table (soup : FundPage) (signaler : String) :
    Except PyErr (List (String × List (Int × Option ℚ))) :=
  match soup.sections signaler with
  | none => Except.error PyErr.attrError
  | some table => do
      let years ← mapE parsePyInt (table.thTexts.drop 2)
      let rows := table.rows.drop 1
      mapE (fun row => do
        let name ← match row.boldName with
          | some n => Except.ok n
          | none => Except.error PyErr.attrError
        let vals ← mapE normalizeCell (row.cells.drop 2)
        Except.ok (name, years.zip vals)) rows

/-- URL requested by get_fundamentals for a stock identifier. -/
def fundUrl (stock : String) : String :=
  "https://www.finanzen.net/bilanz_guv/" ++ stripAktie (strLower stock)

instance rowValsDecEq : DecidableEq (List (Int × Option ℚ)) := inferInstance

instance fundTableDecEq : DecidableEq (List (String × List (Int × Option ℚ))) := inferInstance

/-- Result shape of get_fundamentals: the dict output (association list over
the five category names) or the dataframe rows (Category, Metric, Year,
Value). -/
inductive FundOutput where
  | dict : List (String × Option (List (String × List (Int × Option ℚ)))) → FundOutput
  | frame : List (String × String × Int × Option ℚ) → FundOutput
  deriving DecidableEq

/-- Per-category step of the dataframe branch of get_fundamentals: iterating
a None section raises TypeError, and a parsed section contributes one frame
per metric. -/
def sectionFrames (p : String × Option (List (String × List (Int × Option ℚ)))) :
    Except PyErr (List (List (String × String × Int × Option ℚ))) :=
  match p.2 with
  | none => Except.error PyErr.typeError
  | some t => Except.ok (t.map (fun m => m.2.map (fun yv => (p.1, m.1, yv.1, yv.2))))

/-- Model of the dataframe branch of get_fundamentals (lines 107-116): walk
the five categories collecting one frame per metric, and concatenate;
pd.concat of an empty frame list raises ValueError. -/
def buildFundFrame (l : List (String × Option (List (String × List (Int × Option ℚ))))) :
    Except PyErr (List (String × String × Int × Option ℚ)) := do
  let frames ← mapE sectionFrames l
  let dfList := frames.flatten
  if dfList.isEmpty then Except.error PyErr.valueErrorConcat else Except.ok dfList.flatten

/-- Model of get_fundamentals (stocks.py lines 29-116).  The parameter fetch
stands for _make_soup; the second component of the result is the list of
URLs requested during the call. -/
def get_fundamentals (fetch : String → FundPage) (stock output : String) :
    Except PyErr FundOutput × List String :=
  if output ∈ (["dataframe", "dict"] : List String) then
    let url := fundUrl stock
    let soup := fetch url
    (if soup.valid then
      let fundamentals :=
        [("Quotes", (_parse_table soup "Die Aktie").toOption),
         ("Key Ratios", (_parse_table soup "Unternehmenskennzahlen").toOption),
         ("Income Statement", (_parse_table soup "GuV").toOption),
         ("Balance Sheet", (_parse_table soup "Bilanz").toOption),
         ("Other", (_parse_table soup "sonstige Angaben").toOption)]
      if output = "dict" then Except.ok (FundOutput.dict fundamentals)
      else
        match buildFundFrame fundamentals with
        | Except.ok fr => Except.ok (FundOutput.frame fr)
        | Except.error e => Except.error e
    else Except.error PyErr.noData, [url])
  else (Except.error PyErr.valueErrorOutput, [])

/-- Model of the subtree holding the estimates table (the parent of the h1
heading starting with the estimates title): th texts and the td texts of
every tr row. -/
structure EstTablePart where
  thTexts : List String
  rows : List (List String)
  deriving DecidableEq

/-- Model of the estimates page soup: valid models check_data (modelled from
the spec, as for FundPage); table is the matched subtree, none when the
heading is absent, in which case .parent raises AttributeError. -/
structure EstPage where
  valid : Bool
  table : Option EstTablePart

/-- Model of the estimate-table parsing of get_estimates (lines 138-153):
year labels are the th texts after the first; for every tr row after the
first, the first td text is the metric name (IndexError when the row has no
td) and the remaining cells go through normalizeEstCell. -/
def parseEstTable (soup : EstPage) :
    Except PyErr (List (String × List (String × Option ℚ))) :=
  match soup.table with
  | none => Except.error PyErr.attrError
  | some t =>
      mapE (fun fields =>
        match fields with
        | [] => Except.error PyErr.indexError
        | name :: rest => do
            let vals ← mapE normalizeEstCell rest
            Except.ok (name, (t.thTexts.drop 1).zip vals)) (t.rows.drop 1)

/-- Result shape of get_estimates: dict output or dataframe rows (Metric,
Year, Value). -/
inductive EstOutput where
  | dict : List (String × List (String × Option ℚ)) → EstOutput
  | frame : List (String × String × Option ℚ) → EstOutput
  deriving DecidableEq

/-- URL requested by get_estimates for a stock identifier. -/
def estUrl (stock : String) : String :=
  "https://www.finanzen.net/schaetzungen/" ++ stripAktie (strLower stock)

/-- Model of get_estimates (stocks.py lines 120-166): no per-section
isolation, so any parsing exception aborts the whole call.  The dataframe
branch collects one frame per metric and pd.concat of an empty list raises
ValueError. -/
def get_estimates (fetch : String → EstPage) (stock output : String) :
    Except PyErr EstOutput × List String :=
  if output ∈ (["dataframe", "dict"] : List String) then
    let url := estUrl stock
    let soup := fetch url
    (if soup.valid then
      match parseEstTable soup with
      | Except.error e => Except.error e
      | Except.ok tableDict =>
          if output = "dict" then Except.ok (EstOutput.dict tableDict)
          else
            let dfList := tableDict.map (fun m => m.2.map (fun yv => (m.1, yv.1, yv.2)))
            if dfList.isEmpty then Except.error PyErr.valueErrorConcat
            else Except.ok (EstOutput.frame dfList.flatten)
    else Except.error PyErr.noData, [url])
  else (Except.error PyErr.valueErrorOutput, [])

/-- Model of the quote box div of a price page: the text of the current-value
span when present (reading it on an absent span raises AttributeError). -/
structure QuoteBox where
  priceCurrent : Option String
  deriving DecidableEq

/-- Model of the price page soup: valid models check_data (modelled from the
spec); quotebox is the snapshot values div when present; timeDatetime is the
datetime attribute reached through the snapshot time div and its time child,
none when any link of that chain is missing, in which case the source
raises. -/
structure PricePage where
  valid : Bool
  quotebox : Option QuoteBox
  timeDatetime : Option String
  deriving DecidableEq

/-- Price record built by get_price, polymorphic in the parsed price and
timestamp types produced by the spec-modelled helpers. -/
structure PriceResult (P T : Type) where
  price : P
  currency : String
  timestamp : T
  stock : String
  exchange : String
  deriving DecidableEq

/-- Result shape of get_price: the plain dict or the one-row dataframe. -/
inductive PriceOutput (P T : Type) where
  | dict : PriceResult P T → PriceOutput P T
  | frame : PriceResult P T → PriceOutput P T
  deriving DecidableEq

/-- Exchange field of a price result in either output shape. -/
def PriceOutput.exchangeOf {P T : Type} : PriceOutput P T → String
  | PriceOutput.dict r => r.exchange
  | PriceOutput.frame r => r.exchange

/-- Model of get_price (stocks.py lines 170-224).  The parameters model code
that is not under src/: exchanges models the allow-list statics.exchanges
(modelled from the spec: a fixed allow-list of uppercase codes), parse_price
and parse_timestamp model the helpers of functions.py (modelled from the
spec: split the price text into numeric value plus currency code, and parse
a timestamp attribute); their failures are collapsed to the parseError
kind.  This helper models the extraction chain after the page fetch (lines
192-224): check_data, quote box presence, price span text, price parsing,
timestamp chain and timestamp parsing, then result assembly. -/
def priceCore {P T : Type} (parse_price : String → Option (P × String))
    (parse_timestamp : String → Option T) (soup : PricePage)
    (stock exchange output : String) : Except PyErr (PriceOutput P T) :=
  if soup.valid then
    match soup.quotebox with
    | none => Except.error PyErr.noData
    | some qb =>
        match qb.priceCurrent with
        | none => Except.error PyErr.attrError
        | some ptext =>
            match parse_price ptext with
            | none => Except.error PyErr.parseError
            | some pc =>
                match soup.timeDatetime with
                | none => Except.error PyErr.attrError
                | some tattr =>
                    match parse_timestamp tattr with
                    | none => Except.error PyErr.parseError
                    | some ts =>
                        let result : PriceResult P T :=
                          ⟨pc.1, pc.2, ts, stock, exchange⟩
                        if output = "dataframe" then
                          Except.ok (PriceOutput.frame result)
                        else Except.ok (PriceOutput.dict result)
  else Except.error PyErr.noData

/-- Model of get_price (stocks.py lines 170-224), continued: transform the
arguments, validate the exchange, then the output format, then fetch and run
the extraction chain. -/
def get_price {P T : Type} (parse_price : String → Option (P × String))
    (parse_timestamp : String → Option T)
    (fetch : String → PricePage) (exchanges : List String)
    (stock exchange output : String) : Except PyErr (PriceOutput P T) × List String :=
  let output := strLower output
  let stock := strLower stock
  let exchange := strUpper exchange
  if exchange ∈ exchanges then
    if output ∈ (["dict", "dataframe"] : List String) then
      let url := "https://www.finanzen.net/aktien/" ++ stock ++ "@stBoerse_" ++ exchange
      (priceCore parse_price parse_timestamp (fetch url) stock exchange output, [url])
    else (Except.error PyErr.valueErrorOutput, [])
  else (Except.error PyErr.valueErrorExchange, [])


/-- Search result record: the four string columns built by the search
helpers. -/
structure SearchEntry where
  name : String
  fnStockName : String
  isin : String
  wkn : String
  deriving DecidableEq

/-- Modelled from the spec: the shared search operation
finanzen_fundamentals.search.search is not under src/.  Spec: delegate to a
shared search operation filtered to stock-type results, honoring an optional
result-count limit, unlimited when the limit is negative and zero results
when the limit is zero.  The pool of stock-type matches for the search term
is abstracted as a list. -/
def search (pool : List SearchEntry) (limit : Int) : List SearchEntry :=
  if limit < 0 then pool else pool.take limit.toNat

/-- Model of search_stock (stocks.py lines 228-234): delegate to the shared
search operation with the stock category, passing the limit through. -/
def search_stock (pool : List SearchEntry) (limit : Int) : List SearchEntry :=
  search pool limit

/-- Model of one tr element of the search result table in search_stock_lxml:
the text nodes under its anchors, the href attributes of its anchors, and
the text nodes of each of its td cells. -/
structure SearchRow where
  aTexts : List String
  hrefs : List String
  tds : List (List String)
  deriving DecidableEq

/-- Model of the per-row field extraction of search_stock_lxml (lines
465-470): join and trim the anchor texts and hrefs, index td 1 and td 2 for
ISIN and WKN (IndexError when missing), and build the site identifier by
deleting every "/aktien/" and "-aktie" substring of the link. -/
def extractSearchRow (r : SearchRow) : Except PyErr SearchEntry := do
  let rawName := (String.join r.aTexts).trim
  let rawLink := (String.join r.hrefs).trim
  let rawIsin ← match r.tds.get? 1 with
    | some ts => Except.ok (String.join ts).trim
    | none => Except.error PyErr.indexError
  let rawWkn ← match r.tds.get? 2 with
    | some ts => Except.ok (String.join ts).trim
    | none => Except.error PyErr.indexError
  let fnStockName := (rawLink.replace "/aktien/" "").replace "-aktie" ""
  Except.ok ⟨rawName, fnStockName, rawIsin, rawWkn⟩

/-- Model of the accumulation loop of search_stock_lxml (lines 460-478): for
every data row the four fields are extracted first; then a limit of zero
stops the loop, a positive limit appends the entry and decrements, and a
negative limit appends without bound. -/
def searchLoop : List SearchRow → Int → Except PyErr (List SearchEntry)
  | [], _ => Except.ok []
  | r :: rest, limit => do
      let e ← extractSearchRow r
      if limit = 0 then Except.ok []
      else if 0 < limit then do
        let es ← searchLoop rest (limit - 1)
        Except.ok (e :: es)
      else do
        let es ← searchLoop rest limit
        Except.ok (e :: es)

/-- Model of search_stock_lxml (stocks.py lines 445-480).  An empty result
table raises ValueError; the first table element is skipped.  The results
parameter stands for the mutable default list object bound to the function;
the body rebinds its local name without touching the object, so the call
returns the cell unchanged as the second component. -/
def search_stock_lxml (rows : List SearchRow) (limit : Int) (results : List SearchEntry) :
    Except PyErr (List SearchEntry) × List SearchEntry :=
  (if rows.length = 0 then Except.error PyErr.valueErrorSearch
   else searchLoop (rows.drop 1) limit, results)

/-- Cell of the legacy estimates frame: the loop of get_estimates_lxml keeps
header and first-column cells as strings and converts the other cells to
floats, so a cell is one or the other. -/
inductive EstCell where
  | str : String → EstCell
  | num : ℚ → EstCell
  deriving DecidableEq

/-- Legacy estimates dataframe: after the per-iteration rebuild, the first
collected row has become the column labels and the remaining rows the
data. -/
structure EstLxmlFrame where
  columns : List EstCell
  rows : List (List EstCell)
  deriving DecidableEq

/-- Model of the numeric conversion of get_estimates_lxml (lines 296-299):
a cell that is not the literal "-" has its dots removed and commas replaced
by dots, is split at spaces, and its first piece goes through float(). -/
def estLxmlCell (s : String) : Except PyErr EstCell :=
  if s = "-" then Except.ok (EstCell.str s)
  else
    let x := commaToDot (removeDots s)
    match parsePyFloat ((x.splitOn " ").headD "") with
    | some q => Except.ok (EstCell.num q)
    | none => Except.error PyErr.valueErrorNum

/-- Model of one loop iteration of get_estimates_lxml (lines 290-305): each
child element contributes its first text node (IndexError when it has none);
the first row is the header, whose first cell is overwritten with the label
Estimation (IndexError on an empty row); later rows keep their first cell
and convert the rest. -/
def estLxmlRow (isHeader : Bool) (cells : List (List String)) : Except PyErr (List EstCell) := do
  let texts ← mapE (fun ts => match ts.head? with
    | some t => Except.ok (EstCell.str t)
    | none => Except.error PyErr.indexError) cells
  match isHeader, texts with
  | true, [] => Except.error PyErr.indexError
  | true, _ :: rest => Except.ok (EstCell.str "Estimation" :: rest)
  | false, [] => Except.ok []
  | false, name :: rest => do
      let vals ← mapE (fun c => match c with
        | EstCell.str t => estLxmlCell t
        | EstCell.num q => Except.ok (EstCell.num q)) rest
      Except.ok (name :: vals)

/-- Model of get_estimates_lxml (stocks.py lines 271-310).  With no rows the
dataframe variable is never assigned and returning it raises NameError.  The
results parameter stands for the mutable default list object; the body never
mentions it, so the call returns the cell unchanged as the second
component. -/
def get_estimates_lxml (rows : List (List (List String))) (results : List String) :
    Except PyErr EstLxmlFrame × List String :=
  (match rows with
   | [] => Except.error PyErr.nameError
   | first :: rest => do
       let header ← estLxmlRow true first
       let dataRows ← mapE (estLxmlRow false) rest
       Except.ok ⟨header, dataRows⟩,
   results)

/-- Character of a decimal digit (digits ten and above cannot occur in a
well-formed numeral and are clamped). -/
def digitChar (d : Nat) : Char :=
  match d with
  | 0 => '0' | 1 => '1' | 2 => '2' | 3 => '3' | 4 => '4'
  | 5 => '5' | 6 => '6' | 7 => '7' | 8 => '8' | _ => '9'

/-- Character list of a German-formatted numeral: the digit groups of the
integer part separated by dots, then a comma and the fraction digits. -/
def germanChars (first : List Nat) (rest : List (List Nat)) (frac : List Nat) : List Char :=
  first.map digitChar ++ (rest.map (fun g => '.' :: g.map digitChar)).flatten ++
    ',' :: frac.map digitChar

/-- Rational value denoted by a German-formatted numeral. -/
def germanValue (first : List Nat) (rest : List (List Nat)) (frac : List Nat) : ℚ :=
  (natOfDigits (first ++ rest.flatten) : ℚ) + (natOfDigits frac : ℚ) / (10 : ℚ) ^ frac.length

/-- Fundamentals test row: the bold metric cell and three td cells, of which
the first two are skipped. -/
def okFundRow : FundRow := ⟨some "Umsatz", ["chk", "lbl", "1.000"]⟩

/-- Fundamentals test sub-table with a single data row for year 2020. -/
def okFundSection : FundSection := ⟨["c1", "c2", "2020"], [⟨none, []⟩, okFundRow]⟩

/-- Valid fundamentals test page on which every section parses. -/
def okFundPage : FundPage := ⟨true, fun _ => some okFundSection⟩

/-- Valid fundamentals test page on which every section heading is absent. -/
def badFundPage : FundPage := ⟨true, fun _ => none⟩

/-- Valid fundamentals test page on which exactly the income statement
section is absent. -/
def mixedFundPage : FundPage := ⟨true, fun sig => if sig = "GuV" then none else some okFundSection⟩

/-- Estimates test sub-table with one header row and one data row. -/
def okEstSection : EstTablePart := ⟨["lbl", "2024e"], [["hdr"], ["EPS", "5"]]⟩

/-- Valid estimates test page whose table parses. -/
def okEstPage : EstPage := ⟨true, some okEstSection⟩

/-- Valid estimates test page whose table heading is absent. -/
def badEstPage : EstPage := ⟨true, none⟩
/-- Price test page that fails the data check (the URL is still fetched). -/
def trivPricePage : PricePage := ⟨false, none, none⟩

/-- Successful price test page with a parseable quote box. -/
def okPricePage : PricePage := ⟨true, some ⟨some "10 EUR"⟩, some "ts"⟩

/-- Trivial stand-in for the spec-modelled parse_price helper. -/
def trivParsePrice : String → Option (ℚ × String) := fun _ => some (1, "EUR")

/-- Trivial stand-in for the spec-modelled parse_timestamp helper. -/
def trivParseTime : String → Option String := fun s => some s
/-- Sample search result row with an anchor, a link, and three td cells. -/
def sampleSearchRow : SearchRow :=
  ⟨["Bayer"], ["/aktien/bayer-aktie"], [["x"], ["DE000BAY0017"], ["BAY001"]]⟩

lemma digitChar_ne_dot (d : Nat) : digitChar d ≠ '.' := by
  rcases d with _|_|_|_|_|_|_|_|_|d <;>
    first | decide | exact (by decide : ('9' : Char) ≠ '.')

lemma digitChar_ne_comma (d : Nat) : digitChar d ≠ ',' := by
  rcases d with _|_|_|_|_|_|_|_|_|d <;>
    first | decide | exact (by decide : ('9' : Char) ≠ ',')

lemma digitChar_ne_dash (d : Nat) : ¬(digitChar d = '-') := by
  rcases d with _|_|_|_|_|_|_|_|_|d <;>
    first | decide | exact (by decide : ¬('9' : Char) = '-')

lemma digitChar_ne_plus (d : Nat) : ¬(digitChar d = '+') := by
  rcases d with _|_|_|_|_|_|_|_|_|d <;>
    first | decide | exact (by decide : ¬('9' : Char) = '+')

lemma digitChar_isDigit (d : Nat) : Char.isDigit (digitChar d) = true := by
  rcases d with _|_|_|_|_|_|_|_|_|d <;>
    first | decide | exact (by decide : Char.isDigit '9' = true)

lemma digitChar_toNat (d : Nat) (h : d < 10) : (digitChar d).toNat - 48 = d := by
  interval_cases d <;> decide

lemma filter_dots_map_digitChar (l : List Nat) :
    (l.map digitChar).filter (fun c => c != '.') = l.map digitChar := by
  rw [List.filter_eq_self]
  intro c hc
  obtain ⟨d, _, rfl⟩ := List.mem_map.mp hc
  simpa using digitChar_ne_dot d

lemma filter_dots_groups (r : List (List Nat)) :
    ((r.map (fun g => '.' :: g.map digitChar)).flatten).filter (fun c => c != '.') =
      r.flatten.map digitChar := by
  induction r with
  | nil => rfl
  | cons g r ih =>
      simp only [List.map_cons, List.flatten_cons, List.filter_append, List.filter_cons]
      rw [ih, filter_dots_map_digitChar]
      simp [List.map_append]

lemma map_comma_map_digitChar (l : List Nat) :
    (l.map digitChar).map (fun c => if c = ',' then '.' else c) = l.map digitChar := by
  rw [List.map_map]
  apply List.map_congr_left
  intro d _
  simp [digitChar_ne_comma d]

lemma takeWhile_append_mid (p : Char → Bool) (l₁ : List Char) (x : Char) (l₂ : List Char)
    (h : ∀ c ∈ l₁, p c = true) (hx : p x = false) :
    (l₁ ++ x :: l₂).takeWhile p = l₁ ∧ (l₁ ++ x :: l₂).dropWhile p = x :: l₂ := by
  induction l₁ with
  | nil => simp [List.takeWhile, List.dropWhile, hx]
  | cons a l ih =>
      have ha := h a (List.mem_cons_self a l)
      have hrec := ih (fun c hc => h c (List.mem_cons_of_mem a hc))
      simp only [List.cons_append, List.takeWhile_cons, List.dropWhile_cons, ha]
      simp only [if_true, List.cons_inj_right]
      exact hrec

lemma digitsVal_map_digitChar_aux (l : List Nat) (h : ∀ d ∈ l, d < 10) :
    ∀ a : Nat, (l.map digitChar).foldl (fun x c => 10 * x + (c.toNat - 48)) a =
      l.foldl (fun x d => 10 * x + d) a := by
  induction l with
  | nil => intro a; rfl
  | cons d l ih =>
      intro a
      simp only [List.map_cons, List.foldl_cons]
      rw [digitChar_toNat d (h d (List.mem_cons_self d l))]
      exact ih (fun e he => h e (List.mem_cons_of_mem d he)) (10 * a + d)

lemma digitsVal_map_digitChar (l : List Nat) (h : ∀ d ∈ l, d < 10) :
    digitsVal (l.map digitChar) = natOfDigits l :=
  digitsVal_map_digitChar_aux l h 0

lemma all_isDigit_map_digitChar (l : List Nat) :
    (l.map digitChar).all Char.isDigit = true := by
  rw [List.all_eq_true]
  intro c hc
  obtain ⟨d, _, rfl⟩ := List.mem_map.mp hc
  exact digitChar_isDigit d

lemma german_transformed (first : List Nat) (rest : List (List Nat)) (frac : List Nat) :
    (commaToDot (removeDots (String.mk (germanChars first rest frac)))).data =
      (first ++ rest.flatten).map digitChar ++ '.' :: frac.map digitChar := by
  show ((germanChars first rest frac).filter (fun c => c != '.')).map
      (fun c => if c = ',' then '.' else c) = _
  unfold germanChars
  rw [List.filter_append, List.filter_append, filter_dots_map_digitChar, filter_dots_groups]
  rw [List.filter_cons]
  simp only [show ((',' : Char) != '.') = true from by decide, if_true,
    filter_dots_map_digitChar]
  rw [List.map_append, List.map_append, map_comma_map_digitChar, map_comma_map_digitChar,
    List.map_cons, map_comma_map_digitChar]
  simp [List.map_append]

lemma german_core (f₀ : Nat) (f' : List Nat) (rest : List (List Nat)) (frac : List Nat)
    (h1 : ∀ d ∈ f₀ :: f', d < 10) (h2 : ∀ d ∈ rest.flatten, d < 10)
    (h3 : ∀ d ∈ frac, d < 10) :
    parsePyFloatCore (((f₀ :: f') ++ rest.flatten).map digitChar ++ '.' :: frac.map digitChar)
      = some (germanValue (f₀ :: f') rest frac) := by
  have hIdig : ∀ c ∈ ((f₀ :: f') ++ rest.flatten).map digitChar, Char.isDigit c = true := by
    intro c hc
    obtain ⟨d, _, rfl⟩ := List.mem_map.mp hc
    exact digitChar_isDigit d
  obtain ⟨htake, hdrop⟩ :=
    takeWhile_append_mid Char.isDigit (((f₀ :: f') ++ rest.flatten).map digitChar) '.'
      (frac.map digitChar) hIdig (by decide)
  have hall : ∀ d ∈ f₀ :: (f' ++ rest.flatten), d < 10 := by
    intro d hd
    rcases List.mem_cons.mp hd with rfl | hd'
    · exact h1 _ (List.mem_cons_self _ _)
    · rcases List.mem_append.mp hd' with h | h
      · exact h1 d (List.mem_cons_of_mem _ h)
      · exact h2 d h
  unfold parsePyFloatCore
  rw [htake, hdrop]
  simp only []
  rw [all_isDigit_map_digitChar]
  simp only [List.cons_append, List.map_cons, List.isEmpty_cons, Bool.not_false,
    Bool.true_and, Bool.true_or, if_true]
  rw [← List.map_cons digitChar f₀ (f' ++ rest.flatten)]
  rw [digitsVal_map_digitChar _ hall, digitsVal_map_digitChar frac h3, List.length_map]
  rfl

/-- C1: for every numeric string using dots as thousands separators and a
comma as decimal separator, the cell normalization of the fundamentals table
parser yields the rational value the numeral denotes; for example the input
written 1.234,56 normalizes to 1234.56. -/
theorem c1_german_numeral_normalization (first : List Nat) (rest : List (List Nat))
    (frac : List Nat) (hne : first ≠ []) (h1 : ∀ d ∈ first, d < 10)
    (h2 : ∀ d ∈ rest.flatten, d < 10) (h3 : ∀ d ∈ frac, d < 10) :
    normalizeCell (String.mk (germanChars first rest frac)) =
      Except.ok (some (germanValue first rest frac)) := by
  obtain ⟨f₀, f', rfl⟩ := List.exists_cons_of_ne_nil hne
  have htrans := german_transformed (f₀ :: f') rest frac
  have hguard : ¬(commaToDot (removeDots (String.mk (germanChars (f₀ :: f') rest frac))) = "-" ∨
      commaToDot (removeDots (String.mk (germanChars (f₀ :: f') rest frac))) = "< 0 *") := by
    rintro (h | h) <;>
    · have hd := congrArg String.data h
      rw [htrans] at hd
      have hmem : ('.' : Char) ∈ ((f₀ :: f') ++ rest.flatten).map digitChar ++
          '.' :: frac.map digitChar := List.mem_append_right _ (List.mem_cons_self _ _)
      rw [hd] at hmem
      revert hmem
      decide
  have hdata : (commaToDot (removeDots (String.mk (germanChars (f₀ :: f') rest frac)))).data =
      digitChar f₀ :: ((f' ++ rest.flatten).map digitChar ++ '.' :: frac.map digitChar) := by
    rw [htrans]
    simp [List.cons_append, List.map_cons]
  have hparse : parsePyFloat
      (commaToDot (removeDots (String.mk (germanChars (f₀ :: f') rest frac)))) =
      some (germanValue (f₀ :: f') rest frac) := by
    unfold parsePyFloat
    rw [hdata]
    dsimp only
    rw [if_neg (digitChar_ne_dash f₀), if_neg (digitChar_ne_plus f₀)]
    have hshape : digitChar f₀ :: ((f' ++ rest.flatten).map digitChar ++
        '.' :: frac.map digitChar) =
        ((f₀ :: f') ++ rest.flatten).map digitChar ++ '.' :: frac.map digitChar := by
      simp [List.cons_append, List.map_cons]
    rw [hshape]
    exact german_core f₀ f' rest frac h1 h2 h3
  unfold normalizeCell
  rw [if_neg hguard, hparse]

/-- Witness for C1: the spec example, a numeral written 1.234,56 with one
dot group and two fraction digits, normalizes to the value 1234.56. -/
theorem c1_witness :
    normalizeCell "1.234,56" = Except.ok (some ((123456 : ℚ) / 100)) := by
  have h := c1_german_numeral_normalization [1] [[2, 3, 4]] [5, 6] (by decide) (by decide)
    (by decide) (by decide)
  have hs : String.mk (germanChars [1] [[2, 3, 4]] [5, 6]) = "1.234,56" := by decide
  rw [hs] at h
  rw [h]
  norm_num [germanValue, natOfDigits]

/-- C2 counterexample: in the estimates row parser the literal token written
as less-than zero star is stripped to the digit string 0 and normalizes to
the value zero, not to the absent marker None, refuting the claim for the
estimates parser. -/
theorem c2_counterexample :
    normalizeEstCell "< 0 *" = Except.ok (some 0) ∧
      (Except.ok (some (0 : ℚ)) : Except PyErr (Option ℚ)) ≠ Except.ok none := by
  constructor
  · decide
  · intro h
    simp at h

/-- C2 (amended): the fundamentals cell normalization maps both literal
tokens to the absent marker None; the estimates cell normalization maps the
dash token to None but maps the less-than-zero token to the value zero,
without raising. -/
theorem c2_absent_tokens :
    normalizeCell "-" = Except.ok none ∧ normalizeCell "< 0 *" = Except.ok none ∧
      normalizeEstCell "-" = Except.ok none ∧ normalizeEstCell "< 0 *" = Except.ok (some 0) :=
  ⟨by decide, by decide, by decide, by decide⟩

lemma strMkAppend (l₁ l₂ : List Char) : String.mk l₁ ++ String.mk l₂ = String.mk (l₁ ++ l₂) :=
  rfl

lemma strLower_append (a b : String) : strLower (a ++ b) = strLower a ++ strLower b := by
  unfold strLower
  rw [strMkAppend]
  apply congrArg String.mk
  show List.map Char.toLower (a.data ++ b.data) = _
  rw [List.map_append]

lemma strLower_aktie : strLower "-aktie" = "-aktie" := by decide

lemma mapE_error_total (f : (String × Option (List (String × List (Int × Option ℚ)))) →
      Except PyErr (List (List (String × String × Int × Option ℚ))))
    (l : List (String × Option (List (String × List (Int × Option ℚ)))))
    (hsome : ∃ a ∈ l, f a = Except.error PyErr.typeError)
    (hall : ∀ a ∈ l, f a = Except.error PyErr.typeError ∨ ∃ b, f a = Except.ok b) :
    mapE f l = Except.error PyErr.typeError := by
  induction l with
  | nil => rcases hsome with ⟨a, ha, _⟩; cases ha
  | cons a l ih =>
      rcases hall a (List.mem_cons_self a l) with herr | ⟨b, hok⟩
      · unfold mapE
        rw [herr]
        rfl
      · unfold mapE
        rw [hok]
        have hsome' : ∃ x ∈ l, f x = Except.error PyErr.typeError := by
          rcases hsome with ⟨x, hx, hxe⟩
          rcases List.mem_cons.mp hx with rfl | hx'
          · rw [hok] at hxe; cases hxe
          · exact ⟨x, hx', hxe⟩
        have ih' := ih hsome' (fun x hx => hall x (List.mem_cons_of_mem a hx))
        rw [ih']
        rfl

lemma buildFundFrame_error_of_none
    (l : List (String × Option (List (String × List (Int × Option ℚ)))))
    (h : ∃ p ∈ l, p.2 = none) : buildFundFrame l = Except.error PyErr.typeError := by
  unfold buildFundFrame
  have hmap : mapE sectionFrames l = Except.error PyErr.typeError := by
    apply mapE_error_total
    · rcases h with ⟨p, hp, hnone⟩
      refine ⟨p, hp, ?_⟩
      unfold sectionFrames
      rw [hnone]
    · intro a _
      unfold sectionFrames
      cases a.2 with
      | none => exact Or.inl rfl
      | some t => exact Or.inr ⟨_, rfl⟩
  rw [hmap]
  rfl

/-- C3 (amended): with dict output every section parsing failure degrades
that section to the absent marker None and the fundamentals call still
returns; with dataframe output a failed section makes the call raise
TypeError when the dataframe is assembled; the estimates path has no
isolation, so a parsing failure of its single table aborts the whole call
with the parsing error. -/
theorem c3_section_isolation (fetch : String → FundPage) (stock sig : String)
    (efetch : String → EstPage) (estock eout : String) (e : PyErr) :
    ((fetch (fundUrl stock)).valid = true →
      get_fundamentals fetch stock "dict" =
        (Except.ok (FundOutput.dict
          [("Quotes", (_parse_table (fetch (fundUrl stock)) "Die Aktie").toOption),
           ("Key Ratios",
             (_parse_table (fetch (fundUrl stock)) "Unternehmenskennzahlen").toOption),
           ("Income Statement", (_parse_table (fetch (fundUrl stock)) "GuV").toOption),
           ("Balance Sheet", (_parse_table (fetch (fundUrl stock)) "Bilanz").toOption),
           ("Other", (_parse_table (fetch (fundUrl stock)) "sonstige Angaben").toOption)]),
         [fundUrl stock])) ∧
    ((fetch (fundUrl stock)).valid = true →
      sig ∈ (["Die Aktie", "Unternehmenskennzahlen", "GuV", "Bilanz",
        "sonstige Angaben"] : List String) →
      (_parse_table (fetch (fundUrl stock)) sig).toOption = none →
      get_fundamentals fetch stock "dataframe" =
        (Except.error PyErr.typeError, [fundUrl stock])) ∧
    ((efetch (estUrl estock)).valid = true →
      parseEstTable (efetch (estUrl estock)) = Except.error e →
      eout ∈ (["dataframe", "dict"] : List String) →
      get_estimates efetch estock eout = (Except.error e, [estUrl estock])) := by
  refine ⟨?_, ?_, ?_⟩
  · intro hvalid
    simp only [get_fundamentals, hvalid, if_true]
    rw [if_pos (show ("dict" : String) ∈ (["dataframe", "dict"] : List String) from by decide)]
  · intro hvalid hsig hnone
    simp only [get_fundamentals, hvalid, if_true]
    have hbad : buildFundFrame
        [("Quotes", (_parse_table (fetch (fundUrl stock)) "Die Aktie").toOption),
         ("Key Ratios",
           (_parse_table (fetch (fundUrl stock)) "Unternehmenskennzahlen").toOption),
         ("Income Statement", (_parse_table (fetch (fundUrl stock)) "GuV").toOption),
         ("Balance Sheet", (_parse_table (fetch (fundUrl stock)) "Bilanz").toOption),
         ("Other", (_parse_table (fetch (fundUrl stock)) "sonstige Angaben").toOption)] =
        Except.error PyErr.typeError := by
      apply buildFundFrame_error_of_none
      have hsig' : sig = "Die Aktie" ∨ sig = "Unternehmenskennzahlen" ∨ sig = "GuV" ∨
          sig = "Bilanz" ∨ sig = "sonstige Angaben" := by simpa using hsig
      rcases hsig' with rfl | rfl | rfl | rfl | rfl
      · exact ⟨_, List.mem_cons_self _ _, hnone⟩
      · exact ⟨("Key Ratios",
            (_parse_table (fetch (fundUrl stock)) "Unternehmenskennzahlen").toOption),
          List.mem_cons_of_mem _ (List.mem_cons_self _ _), hnone⟩
      · exact ⟨("Income Statement", (_parse_table (fetch (fundUrl stock)) "GuV").toOption),
          List.mem_cons_of_mem _ (List.mem_cons_of_mem _ (List.mem_cons_self _ _)), hnone⟩
      · exact ⟨("Balance Sheet", (_parse_table (fetch (fundUrl stock)) "Bilanz").toOption),
          List.mem_cons_of_mem _ (List.mem_cons_of_mem _
            (List.mem_cons_of_mem _ (List.mem_cons_self _ _))), hnone⟩
      · exact ⟨("Other", (_parse_table (fetch (fundUrl stock)) "sonstige Angaben").toOption),
          List.mem_cons_of_mem _ (List.mem_cons_of_mem _ (List.mem_cons_of_mem _
            (List.mem_cons_of_mem _ (List.mem_cons_self _ _)))), hnone⟩
    rw [hbad,
      if_pos (show ("dataframe" : String) ∈ (["dataframe", "dict"] : List String) from by decide),
      if_neg (show ¬("dataframe" : String) = "dict" from by decide)]
  · intro hvalid hparse hout
    simp only [get_estimates, hvalid, if_true]
    rw [if_pos hout, hparse]

/-- C3 counterexample: on a concrete valid page where every section heading
is absent, fundamentals retrieval with dataframe output raises TypeError
instead of still returning a result, refuting the dataframe half of the
claim. -/
theorem c3_counterexample :
    get_fundamentals (fun _ => badFundPage) "x" "dataframe" =
      (Except.error PyErr.typeError, ["https://www.finanzen.net/bilanz_guv/x"]) := by decide

/-- Witness for C3 on concrete pages: dict output with all sections parsed,
dataframe output with a failed section, and an estimates page with a missing
table. -/
theorem c3_witness :
    get_fundamentals (fun _ => okFundPage) "x" "dict" =
      (Except.ok (FundOutput.dict
        [("Quotes", some [("Umsatz", [((2020 : Int), some (1000 : ℚ))])]),
         ("Key Ratios", some [("Umsatz", [(2020, some 1000)])]),
         ("Income Statement", some [("Umsatz", [(2020, some 1000)])]),
         ("Balance Sheet", some [("Umsatz", [(2020, some 1000)])]),
         ("Other", some [("Umsatz", [(2020, some 1000)])])]),
       [fundUrl "x"]) ∧
    get_fundamentals (fun _ => mixedFundPage) "y" "dataframe" =
      (Except.error PyErr.typeError, [fundUrl "y"]) ∧
    get_estimates (fun _ => badEstPage) "z" "dict" =
      (Except.error PyErr.attrError, [estUrl "z"]) := by
  refine ⟨?_, ?_, ?_⟩
  · have h := (c3_section_isolation (fun _ => okFundPage) "x" "GuV"
      (fun _ => badEstPage) "z" "dict" PyErr.attrError).1 rfl
    rw [h]
    decide
  · exact (c3_section_isolation (fun _ => mixedFundPage) "y" "GuV"
      (fun _ => badEstPage) "z" "dict" PyErr.attrError).2.1 rfl (by decide) (by decide)
  · exact (c3_section_isolation (fun _ => okFundPage) "x" "GuV"
      (fun _ => badEstPage) "z" "dict" PyErr.attrError).2.2 rfl (by decide) (by decide)

/-- C6: whenever fundamentals retrieval with dict output returns normally,
the returned mapping is keyed by exactly the five fixed category names, in
their fixed order, and each of the five values is either a metric mapping or
the absent marker None. -/
theorem c6_dict_shape (fetch : String → FundPage) (stock : String)
    (m : List (String × Option (List (String × List (Int × Option ℚ)))))
    (log : List String)
    (h : get_fundamentals fetch stock "dict" = (Except.ok (FundOutput.dict m), log)) :
    m.map Prod.fst =
      ["Quotes", "Key Ratios", "Income Statement", "Balance Sheet", "Other"] ∧
      ∀ p ∈ m, p.2 = none ∨ ∃ t, p.2 = some t := by
  have hshape : m.map Prod.fst =
      ["Quotes", "Key Ratios", "Income Statement", "Balance Sheet", "Other"] := by
    simp only [get_fundamentals] at h
    rw [if_pos
      (show ("dict" : String) ∈ (["dataframe", "dict"] : List String) from by decide)] at h
    by_cases hv : (fetch (fundUrl stock)).valid = true
    · rw [if_pos hv, if_true] at h
      have hm := congrArg Prod.fst h
      simp only [Except.ok.injEq, FundOutput.dict.injEq] at hm
      rw [← hm]
      rfl
    · rw [if_neg hv] at h
      have hm := congrArg Prod.fst h
      simp at hm
  refine ⟨hshape, ?_⟩
  intro p _
  cases hq : p.2 with
  | none => exact Or.inl rfl
  | some t => exact Or.inr ⟨t, rfl⟩

/-- Witness for C6: applying the shape theorem to a concrete successful dict
call returns exactly the five category names. -/
theorem c6_witness :
    ([("Quotes", some [("Umsatz", [((2020 : Int), some (1000 : ℚ))])]),
      ("Key Ratios", some [("Umsatz", [(2020, some 1000)])]),
      ("Income Statement", some [("Umsatz", [(2020, some 1000)])]),
      ("Balance Sheet", some [("Umsatz", [(2020, some 1000)])]),
      ("Other", some [("Umsatz", [(2020, some 1000)])])].map Prod.fst) =
      ["Quotes", "Key Ratios", "Income Statement", "Balance Sheet", "Other"] :=
  (c6_dict_shape (fun _ => okFundPage) "x" _ [fundUrl "x"] (by decide)).1

lemma stripAktie_append (x : String) : stripAktie (x ++ "-aktie") = x := by
  unfold stripAktie
  have hdata : (x ++ "-aktie").data = x.data ++ "-aktie".data := rfl
  rw [hdata]
  rw [if_pos]
  · have hlen : (x.data ++ "-aktie".data).length - 6 = x.data.length := by
      rw [List.length_append]
      simp [show ("-aktie".data).length = 6 from by decide]
    rw [hlen, List.take_left]
  · have hsuffix : "-aktie".data <:+ x.data ++ "-aktie".data := List.suffix_append x.data _
    exact List.isSuffixOf_iff_suffix.mpr hsuffix

lemma fundUrl_aktie (base : String) :
    fundUrl (base ++ "-aktie") = "https://www.finanzen.net/bilanz_guv/" ++ strLower base := by
  unfold fundUrl
  rw [strLower_append, strLower_aktie, stripAktie_append]

lemma estUrl_aktie (base : String) :
    estUrl (base ++ "-aktie") = "https://www.finanzen.net/schaetzungen/" ++ strLower base := by
  unfold estUrl
  rw [strLower_append, strLower_aktie, stripAktie_append]

/-- C4 counterexample: price retrieval for the identifier bmw-aktie requests
a URL in which the known suffix is still present, refuting the claim that
every retrieval operation strips the suffix before URL construction. -/
theorem c4_counterexample :
    (get_price trivParsePrice trivParseTime (fun _ => trivPricePage) ["FSE"]
        "bmw-aktie" "FSE" "dict").2 =
      ["https://www.finanzen.net/aktien/bmw-aktie@stBoerse_FSE"] ∧
      ("https://www.finanzen.net/aktien/bmw-aktie@stBoerse_FSE" : String) ≠
        "https://www.finanzen.net/aktien/bmw@stBoerse_FSE" := by
  constructor
  · decide
  · decide

/-- C4 (amended): fundamentals and estimates retrieval strip the known
suffix from the lowercased identifier before building the request URL; price
retrieval lowercases the identifier but keeps the suffix, so its request URL
contains the suffix intact. -/
theorem c4_suffix_strip (base : String) (fetch : String → FundPage)
    (efetch : String → EstPage) (out : String) {P T : Type}
    (pp : String → Option (P × String)) (pt : String → Option T)
    (pfetch : String → PricePage) (exchs : List String) (exch pout : String) :
    (∀ u ∈ (get_fundamentals fetch (base ++ "-aktie") out).2,
       u = "https://www.finanzen.net/bilanz_guv/" ++ strLower base) ∧
    (∀ u ∈ (get_estimates efetch (base ++ "-aktie") out).2,
       u = "https://www.finanzen.net/schaetzungen/" ++ strLower base) ∧
    (∀ u ∈ (get_price pp pt pfetch exchs (base ++ "-aktie") exch pout).2,
       u = "https://www.finanzen.net/aktien/" ++ (strLower base ++ "-aktie") ++
         "@stBoerse_" ++ strUpper exch) := by
  refine ⟨?_, ?_, ?_⟩
  · intro u hu
    simp only [get_fundamentals] at hu
    by_cases hmem : out ∈ (["dataframe", "dict"] : List String)
    · rw [if_pos hmem] at hu
      have hu2 : u ∈ [fundUrl (base ++ "-aktie")] := hu
      rw [fundUrl_aktie] at hu2
      simpa using hu2
    · rw [if_neg hmem] at hu
      cases hu
  · intro u hu
    simp only [get_estimates] at hu
    by_cases hmem : out ∈ (["dataframe", "dict"] : List String)
    · rw [if_pos hmem] at hu
      have hu2 : u ∈ [estUrl (base ++ "-aktie")] := hu
      rw [estUrl_aktie] at hu2
      simpa using hu2
    · rw [if_neg hmem] at hu
      cases hu
  · intro u hu
    simp only [get_price] at hu
    by_cases hex : strUpper exch ∈ exchs
    · rw [if_pos hex] at hu
      by_cases hmem : strLower pout ∈ (["dict", "dataframe"] : List String)
      · rw [if_pos hmem] at hu
        have hu2 : u = "https://www.finanzen.net/aktien/" ++ strLower (base ++ "-aktie") ++
            "@stBoerse_" ++ strUpper exch := by simpa using hu
        rw [hu2, strLower_append, strLower_aktie]
      · rw [if_neg hmem] at hu
        cases hu
    · rw [if_neg hex] at hu
      cases hu

/-- Witness for C4: a concrete fundamentals call for the identifier
BMW-aktie requests the suffix-stripped lowercased URL. -/
theorem c4_witness :
    "https://www.finanzen.net/bilanz_guv/bmw" ∈
      (get_fundamentals (fun _ => okFundPage) ("BMW" ++ "-aktie") "dict").2 ∧
      ("https://www.finanzen.net/bilanz_guv/bmw" : String) =
        "https://www.finanzen.net/bilanz_guv/" ++ strLower "BMW" := by
  have hmem : "https://www.finanzen.net/bilanz_guv/bmw" ∈
      (get_fundamentals (fun _ => okFundPage) ("BMW" ++ "-aktie") "dict").2 := by decide
  exact ⟨hmem,
    (c4_suffix_strip "BMW" (fun _ => okFundPage) (fun _ => badEstPage) "dict"
      trivParsePrice trivParseTime (fun _ => trivPricePage) ["FSE"] "FSE" "dict").1 _ hmem⟩


lemma priceCore_cases {P T : Type} (pp : String → Option (P × String))
    (pt : String → Option T) (soup : PricePage) (stock exchange output : String) :
    priceCore pp pt soup stock exchange output ≠ Except.error PyErr.valueErrorExchange ∧
      ∀ r : PriceOutput P T, priceCore pp pt soup stock exchange output = Except.ok r →
        r.exchangeOf = exchange := by
  obtain ⟨v, qbox, tdt⟩ := soup
  cases v
  · exact ⟨by simp [priceCore], by simp [priceCore]⟩
  · cases qbox
    · exact ⟨by simp [priceCore], by simp [priceCore]⟩
    · rename_i qb
      obtain ⟨pcur⟩ := qb
      cases pcur
      · exact ⟨by simp [priceCore], by simp [priceCore]⟩
      · rename_i ptext
        cases hpp : pp ptext
        · exact ⟨by simp [priceCore, hpp], by simp [priceCore, hpp]⟩
        · rename_i pc
          cases tdt
          · exact ⟨by simp [priceCore, hpp], by simp [priceCore, hpp]⟩
          · rename_i tattr
            cases hpt : pt tattr
            · exact ⟨by simp [priceCore, hpp, hpt], by simp [priceCore, hpp, hpt]⟩
            · rename_i ts
              by_cases ho : output = "dataframe"
              · have hcomp : priceCore pp pt ⟨true, some ⟨some ptext⟩, some tattr⟩
                    stock exchange output =
                    Except.ok (PriceOutput.frame
                      (⟨pc.1, pc.2, ts, stock, exchange⟩ : PriceResult P T)) := by
                  simp [priceCore, hpp, hpt, ho]
                rw [hcomp]
                refine ⟨by simp, ?_⟩
                intro r hr
                have h := Except.ok.inj hr
                rw [← h]
                rfl
              · have hcomp : priceCore pp pt ⟨true, some ⟨some ptext⟩, some tattr⟩
                    stock exchange output =
                    Except.ok (PriceOutput.dict
                      (⟨pc.1, pc.2, ts, stock, exchange⟩ : PriceResult P T)) := by
                  simp [priceCore, hpp, hpt, ho]
                rw [hcomp]
                refine ⟨by simp, ?_⟩
                intro r hr
                have h := Except.ok.inj hr
                rw [← h]
                rfl

/-- C5: for every exchange code whose uppercased form is outside the
allow-list, price retrieval raises the invalid-exchange ValueError and
requests no URL at all. -/
theorem c5_invalid_exchange {P T : Type} (pp : String → Option (P × String))
    (pt : String → Option T) (fetch : String → PricePage) (exchanges : List String)
    (stock exch out : String) (h : strUpper exch ∉ exchanges) :
    get_price pp pt fetch exchanges stock exch out =
      (Except.error PyErr.valueErrorExchange, []) := by
  simp only [get_price]
  rw [if_neg h]

/-- Witness for C5: the lowercase code xyz uppercases to XYZ, which is not
in the singleton allow-list, so the call raises with an empty request
log. -/
theorem c5_witness :
    strUpper "xyz" ∉ (["FSE"] : List String) ∧
      get_price trivParsePrice trivParseTime (fun _ => trivPricePage) ["FSE"]
        "bmw" "xyz" "dict" = (Except.error PyErr.valueErrorExchange, []) :=
  ⟨by decide, c5_invalid_exchange _ _ _ _ _ _ _ (by decide)⟩

/-- C7 counterexample: calling price retrieval with both an invalid exchange
and an output format outside the set raises the invalid-exchange error, not
the invalid-output-format error, refuting the claim for price retrieval. -/
theorem c7_counterexample :
    get_price trivParsePrice trivParseTime (fun _ => trivPricePage) ["FSE"]
        "bmw" "xyz" "json" = (Except.error PyErr.valueErrorExchange, []) ∧
      PyErr.valueErrorExchange ≠ PyErr.valueErrorOutput := by
  constructor
  · decide
  · decide

/-- C7 (amended): fundamentals and estimates retrieval raise the
invalid-output-format ValueError first, requesting nothing, whenever the
output argument is outside the set; price retrieval lowercases the output
argument and validates the exchange first, so it raises
invalid-output-format, with no request, exactly when the uppercased
exchange is allowed and the lowercased output is outside the set. -/
theorem c7_invalid_output (fetch : String → FundPage) (efetch : String → EstPage)
    (stock estock out : String) {P T : Type} (pp : String → Option (P × String))
    (pt : String → Option T) (pfetch : String → PricePage) (exchs : List String)
    (pstock exch pout : String) :
    (out ∉ (["dataframe", "dict"] : List String) →
      get_fundamentals fetch stock out = (Except.error PyErr.valueErrorOutput, []) ∧
        get_estimates efetch estock out = (Except.error PyErr.valueErrorOutput, [])) ∧
    (strUpper exch ∈ exchs → strLower pout ∉ (["dict", "dataframe"] : List String) →
      get_price pp pt pfetch exchs pstock exch pout =
        (Except.error PyErr.valueErrorOutput, [])) := by
  constructor
  · intro hout
    constructor
    · simp only [get_fundamentals]
      rw [if_neg hout]
    · simp only [get_estimates]
      rw [if_neg hout]
  · intro hex hpout
    simp only [get_price]
    rw [if_pos hex, if_neg hpout]

/-- Witness for C7: the output string json is rejected by fundamentals
retrieval immediately, and by price retrieval after the valid exchange
check. -/
theorem c7_witness :
    (("json" : String) ∉ (["dataframe", "dict"] : List String) ∧
      get_fundamentals (fun _ => okFundPage) "x" "json" =
        (Except.error PyErr.valueErrorOutput, [])) ∧
      get_price trivParsePrice trivParseTime (fun _ => trivPricePage) ["FSE"]
        "bmw" "fse" "json" = (Except.error PyErr.valueErrorOutput, []) := by
  refine ⟨⟨by decide, ?_⟩, ?_⟩
  · exact ((c7_invalid_output (fun _ => okFundPage) (fun _ => badEstPage) "x" "z" "json"
      trivParsePrice trivParseTime (fun _ => trivPricePage) ["FSE"] "bmw" "fse"
      "json").1 (by decide)).1
  · exact (c7_invalid_output (fun _ => okFundPage) (fun _ => badEstPage) "x" "z" "json"
      trivParsePrice trivParseTime (fun _ => trivPricePage) ["FSE"] "bmw" "fse"
      "json").2 (by decide) (by decide)

/-- C10: price retrieval uppercases the exchange before validating it, so a
code whose uppercased form is allowed never raises invalid-exchange, and on
any successful return the exchange field of the record is the uppercased
code. -/
theorem c10_exchange_uppercase {P T : Type} (pp : String → Option (P × String))
    (pt : String → Option T) (fetch : String → PricePage) (exchs : List String)
    (stock exch out : String) (hex : strUpper exch ∈ exchs) :
    (get_price pp pt fetch exchs stock exch out).1 ≠
      Except.error PyErr.valueErrorExchange ∧
      ∀ (r : PriceOutput P T) (log : List String),
        get_price pp pt fetch exchs stock exch out = (Except.ok r, log) →
        r.exchangeOf = strUpper exch := by
  simp only [get_price]
  rw [if_pos hex]
  by_cases hout : strLower out ∈ (["dict", "dataframe"] : List String)
  · rw [if_pos hout]
    have h := priceCore_cases pp pt
      (fetch ("https://www.finanzen.net/aktien/" ++ strLower stock ++ "@stBoerse_" ++
        strUpper exch)) (strLower stock) (strUpper exch) (strLower out)
    constructor
    · exact h.1
    · intro r log hr
      have hfst := congrArg Prod.fst hr
      exact h.2 r hfst
  · rw [if_neg hout]
    constructor
    · intro hc
      simp at hc
    · intro r log hr
      have hfst := congrArg Prod.fst hr
      simp at hfst

/-- Witness for C10: the lowercase code fse uppercases into the allow-list;
a successful concrete call returns the uppercased code FSE in its exchange
field. -/
theorem c10_witness :
    strUpper "fse" ∈ (["FSE"] : List String) ∧
      (get_price trivParsePrice trivParseTime (fun _ => okPricePage) ["FSE"] "bmw" "fse"
        "dataframe").1 ≠ Except.error PyErr.valueErrorExchange ∧
      PriceOutput.exchangeOf
        (PriceOutput.frame (⟨1, "EUR", "ts", "bmw", "FSE"⟩ : PriceResult ℚ String)) =
        strUpper "fse" := by
  have h := c10_exchange_uppercase trivParsePrice trivParseTime (fun _ => okPricePage)
    ["FSE"] "bmw" "fse" "dataframe" (by decide)
  refine ⟨by decide, h.1, ?_⟩
  exact h.2 (PriceOutput.frame ⟨1, "EUR", "ts", "bmw", "FSE"⟩)
    ["https://www.finanzen.net/aktien/bmw@stBoerse_FSE"] (by decide)

lemma searchLoop_neg (rows : List SearchRow) (limit : Int) (h : limit < 0) :
    searchLoop rows limit = mapE extractSearchRow rows := by
  induction rows with
  | nil => rfl
  | cons r rest ih =>
      unfold searchLoop mapE
      cases hext : extractSearchRow r with
      | error e => rfl
      | ok b =>
          simp only [if_neg (show ¬limit = (0 : Int) from by omega),
            if_neg (show ¬(0 : Int) < limit from by omega), ih]

lemma searchLoop_zero (rows : List SearchRow) (l : List SearchEntry)
    (h : searchLoop rows 0 = Except.ok l) : l = [] := by
  cases rows with
  | nil =>
      unfold searchLoop at h
      simp only [Except.ok.injEq] at h
      exact h.symm
  | cons r rest =>
      unfold searchLoop at h
      cases hext : extractSearchRow r with
      | error e =>
          rw [hext] at h
          have h2 : (Except.error e : Except PyErr (List SearchEntry)) = Except.ok l := h
          exact Except.noConfusion h2
      | ok b =>
          rw [hext] at h
          have h2 : (Except.ok ([] : List SearchEntry) : Except PyErr (List SearchEntry)) =
              Except.ok l := h
          exact (Except.ok.inj h2).symm

/-- C8: stock search passes the limit through to the shared search
operation, which returns all matches for a negative limit and no matches
for limit zero; the legacy lxml search loop behaves the same way, returning
every extracted data row for a negative limit and an empty result for limit
zero. -/
theorem c8_search_limit (pool : List SearchEntry) (limit : Int) (rows : List SearchRow)
    (cell : List SearchEntry) :
    (limit < 0 → search_stock pool limit = pool) ∧
    search_stock pool 0 = [] ∧
    (∀ l, (search_stock_lxml rows 0 cell).1 = Except.ok l → l = []) ∧
    (limit < 0 → rows ≠ [] →
      (search_stock_lxml rows limit cell).1 = mapE extractSearchRow (rows.drop 1)) := by
  refine ⟨?_, ?_, ?_, ?_⟩
  · intro h
    unfold search_stock search
    rw [if_pos h]
  · unfold search_stock search
    rw [if_neg (show ¬(0 : Int) < 0 from by omega)]
    rfl
  · intro l hl
    have hl' : (if rows.length = 0 then Except.error PyErr.valueErrorSearch
        else searchLoop (rows.drop 1) 0) = Except.ok l := hl
    by_cases hr : rows.length = 0
    · rw [if_pos hr] at hl'
      exact Except.noConfusion hl'
    · rw [if_neg hr] at hl'
      exact searchLoop_zero _ _ hl'
  · intro hneg hrows
    show (if rows.length = 0 then Except.error PyErr.valueErrorSearch
        else searchLoop (rows.drop 1) limit) = _
    rw [if_neg (show ¬rows.length = 0 by simpa using hrows)]
    exact searchLoop_neg _ _ hneg

/-- Witness for C8 at concrete inputs: a negative limit returns the whole
pool and every extracted row, and a zero limit returns nothing. -/
theorem c8_witness :
    search_stock [(⟨"a", "b", "c", "d"⟩ : SearchEntry)] (-1) = [⟨"a", "b", "c", "d"⟩] ∧
      ([] : List SearchEntry) = [] ∧
      (search_stock_lxml [sampleSearchRow, sampleSearchRow] (-1) []).1 =
        mapE extractSearchRow [sampleSearchRow] := by
  have h := c8_search_limit [(⟨"a", "b", "c", "d"⟩ : SearchEntry)] (-1)
    [sampleSearchRow, sampleSearchRow] []
  exact ⟨h.1 (by decide), h.2.2.1 [] (by decide), h.2.2.2 (by decide) (by decide)⟩

/-- C9: the legacy helpers neither read nor mutate the mutable default list
object bound to their results parameter: the returned value is independent
of the content of that cell and the cell comes back unchanged, so with a
fixed fetched-page environment repeated calls always produce the same
result and no call changes the result of a later one. -/
theorem c9_no_shared_state (erows : List (List (List String))) (c c' : List String)
    (srows : List SearchRow) (limit : Int) (d d' : List SearchEntry) :
    (get_estimates_lxml erows c).1 = (get_estimates_lxml erows c').1 ∧
      (get_estimates_lxml erows c).2 = c ∧
      (search_stock_lxml srows limit d).1 = (search_stock_lxml srows limit d').1 ∧
      (search_stock_lxml srows limit d).2 = d :=
  ⟨rfl, rfl, rfl, rfl⟩
